import Mathlib

/-!
Verification development for the ozon-tg-notifier reconciliation engine.

The repository holds two near-duplicate implementations:
`src/index.js` and `src/main.js`.  The definitions below are shallow
embeddings of their pure cores.  JavaScript numbers are modeled as
rationals (`ℚ`), absent/`null`/`undefined` fields as `Option`, and the
`Number(..)`/`isFinite` prelude of the unit normalizers folds unparseable
or non-finite inputs into `none`, exactly the cases the source maps to
`null`.  Network calls are modeled as oracles returning `Option`
(`none` = the call throws).  SHA-256 cannot be meaningfully embedded, so a
fingerprint is modeled as the canonical serialization string the source
hashes: equal serializations give equal hashes and, under the source's own
"equality oracle" reading of the hash, distinct serializations give
distinct fingerprints, so claims about fingerprint equality transfer.
-/

namespace Ozon

/-- JS nullish coalescing `a ?? b` on optional values. -/
def jsNullish (a b : Option α) : Option α :=
  match a with
  | some x => some x
  | none => b

/-- JS `a || b` on optional strings: `undefined`, `null` and `""` are falsy. -/
def jsOrS (a b : Option String) : Option String :=
  match a with
  | some s => if s = "" then b else some s
  | none => b

/-- JS `a || ''` on an optional string. -/
def jsStr (a : Option String) : String :=
  (jsOrS a (some "")).getD ""

/-- JS `a || b` on optional numbers: `undefined`, `null` and `0` are falsy. -/
def jsOrZ (a b : Option Int) : Option Int :=
  match a with
  | some n => if n = 0 then b else some n
  | none => b

/-- JS `s.toLowerCase()`: per-character lowering (the character-level map the
standard library's `String.toLower` also performs, stated over the character
list so that it is kernel-computable). -/
def strToLower (s : String) : String := ⟨s.data.map Char.toLower⟩

/-- Rounding to two decimal places, the numeric effect of the source's
`+x.toFixed(2)`. -/
def toFixed2 (x : ℚ) : ℚ := (round (x * 100) : ℤ) / 100

/-- Rounding to one decimal place, the numeric effect of the source's
`+x.toFixed(1)`. -/
def toFixed1 (x : ℚ) : ℚ := (round (x * 10) : ℤ) / 10

/-- Length normalizer `mm` (index.js 167–176, main.js 283–292).  `none` stands
for `null`, an unparseable string, or a non-finite number, each of which makes
the source return `null` before the unit dispatch. -/
def mm (val : Option ℚ) (unit : Option String) : Option ℚ :=
  match val with
  | none => none
  | some x =>
    let u := strToLower (unit.getD "")
    if u = "mm" ∨ u = "" then some (toFixed2 x)
    else if u = "cm" then some (toFixed2 (x * 10))
    else if u = "m" then some (toFixed2 (x * 1000))
    else some x

/-- Weight normalizer `grams` (index.js 177–185, main.js 293–301). -/
def grams (val : Option ℚ) (unit : Option String) : Option ℚ :=
  match val with
  | none => none
  | some x =>
    let u := strToLower (unit.getD "")
    if u = "g" ∨ u = "" then some (toFixed1 x)
    else if u = "kg" then some (toFixed1 (x * 1000))
    else some x

/-- Canonical dimension record. -/
structure Dims where
  depth_mm : Option ℚ
  width_mm : Option ℚ
  height_mm : Option ℚ
  weight_g : Option ℚ
  deriving DecidableEq, Repr

/-- A loosely-shaped JS object carrying dimension fields, as consumed by the
`maybe` helper inside `extractDims` / `extractDimsFromInfo`.  Absent JS fields
are `none`. -/
structure DimObj where
  depth : Option ℚ := none
  length : Option ℚ := none
  long : Option ℚ := none
  width : Option ℚ := none
  height : Option ℚ := none
  weight : Option ℚ := none
  dimension_unit : Option String := none
  length_unit : Option String := none
  width_unit : Option String := none
  height_unit : Option String := none
  unit : Option String := none
  weight_unit : Option String := none
  deriving DecidableEq, Repr

/-- The `maybe` candidate builder inside `extractDims` (index.js 197–211) and
`extractDimsFromInfo` (main.js 325–339). -/
def maybe (obj : DimObj) : Dims :=
  { depth_mm := mm (jsNullish obj.depth (jsNullish obj.length obj.long))
      (jsOrS obj.dimension_unit (jsOrS obj.length_unit obj.unit))
    width_mm := mm obj.width (jsOrS obj.dimension_unit (jsOrS obj.width_unit obj.unit))
    height_mm := mm obj.height (jsOrS obj.dimension_unit (jsOrS obj.height_unit obj.unit))
    weight_g := grams obj.weight obj.weight_unit }

/-- A bulk-info item (`it`) as consumed by the extractors and the reconciliation
loops.  Absent JS fields are `none`. -/
structure InfoRec where
  offer_id : Option String := none
  offerId : Option String := none
  offer : Option String := none
  id : Option Int := none
  product_id : Option Int := none
  name : Option String := none
  updated_at : Option String := none
  updatedAt : Option String := none
  depth : Option ℚ := none
  width : Option ℚ := none
  height : Option ℚ := none
  weight : Option ℚ := none
  dimension_unit : Option String := none
  weight_unit : Option String := none
  dimensions : Option DimObj := none
  dimension : Option DimObj := none
  package_dimensions : Option DimObj := none
  deriving DecidableEq, Repr

/-- The `direct` candidate object built from the top-level fields
(index.js 188–195, main.js 316–323). -/
def directOf (it : InfoRec) : DimObj :=
  { depth := it.depth, width := it.width, height := it.height,
    dimension_unit := it.dimension_unit, weight := it.weight,
    weight_unit := it.weight_unit }

/-- The nested candidate `it.dimensions || it.dimension || it.package_dimensions || {}`
(index.js 196, main.js 324): objects are always truthy in JS, so the chain picks
the first present object and defaults to the empty object. -/
def nestedOf (it : InfoRec) : DimObj :=
  (jsNullish it.dimensions (jsNullish it.dimension it.package_dimensions)).getD {}

/-- main.js `extractDimsFromInfo` (lines 315–347): the direct-fields candidate
wins outright when any of its four normalized values is non-null. -/
def extractDimsFromInfo (it : InfoRec) : Dims :=
  let c1 := maybe (directOf it)
  let c2 := maybe (nestedOf it)
  let vals1 := [c1.depth_mm, c1.width_mm, c1.height_mm, c1.weight_g].filter (fun v => v.isSome)
  if vals1.length ≠ 0 then c1 else c2

/-- index.js `extractDims` (lines 187–219); its body is textually identical to
main.js `extractDimsFromInfo`. -/
def extractDims (it : InfoRec) : Dims :=
  let c1 := maybe (directOf it)
  let c2 := maybe (nestedOf it)
  let vals1 := [c1.depth_mm, c1.width_mm, c1.height_mm, c1.weight_g].filter (fun v => v.isSome)
  if vals1.length ≠ 0 then c1 else c2

/-- A primitive JS value occurring in attribute value entries: a string
(`value` / `text`) or a number (`dictionary_value_id`, an integer id). -/
inductive JPrim where
  | str (s : String)
  | num (n : Int)
  deriving DecidableEq, Repr

/-- JS truthiness on those primitives: the empty string and the number 0 are
falsy. -/
def JPrim.truthy : JPrim → Bool
  | .str s => s != ""
  | .num n => n != 0

/-- One entry of an attribute's `values` array. -/
structure AttrValue where
  value : Option JPrim := none
  text : Option JPrim := none
  dictionary_value_id : Option JPrim := none
  deriving DecidableEq, Repr

/-- One declared attribute of a product. -/
structure AttrRec where
  name : Option String := none
  attribute_id : Option Int := none
  values : Option (List AttrValue) := none
  deriving DecidableEq, Repr

/-- An item of the v4 attributes endpoint: root-level dimension fields plus the
declared attribute list. -/
structure AttrsItem where
  offer_id : Option String := none
  attributes : Option (List AttrRec) := none
  depth : Option ℚ := none
  length : Option ℚ := none
  long : Option ℚ := none
  width : Option ℚ := none
  height : Option ℚ := none
  weight : Option ℚ := none
  dimension_unit : Option String := none
  length_unit : Option String := none
  unit : Option String := none
  weight_unit : Option String := none
  deriving DecidableEq, Repr

/-- main.js `extractDimsFromAttrsRoot` (lines 303–313): a single candidate read
from the attributes-endpoint item's root fields, with the length unit defaulting
to `mm` and the weight unit to `g`. -/
def extractDimsFromAttrsRoot (item : AttrsItem) : Dims :=
  let dimension_unit := jsOrS item.dimension_unit (jsOrS item.length_unit (jsOrS item.unit (some "mm")))
  let weight_unit := jsOrS item.weight_unit (some "g")
  { depth_mm := mm (jsNullish item.depth (jsNullish item.length item.long)) dimension_unit
    width_mm := mm item.width dimension_unit
    height_mm := mm item.height dimension_unit
    weight_g := grams item.weight weight_unit }

/-- JS `s.includes(p)` substring test. -/
def strIncludes (s p : String) : Bool := decide (p.toList <:+: s.toList)

/-- Resolution of one value entry:
`v?.value ?? v?.text ?? v?.dictionary_value_id`. -/
def resolveValue (v : AttrValue) : Option JPrim :=
  jsNullish v.value (jsNullish v.text v.dictionary_value_id)

/-- A selected size-relevant attribute, as pushed by `pickSizeAttributes`. -/
structure SelAttr where
  name : Option String
  attribute_id : Option Int
  values : List JPrim
  deriving DecidableEq, Repr

/-- Resolution-and-truthiness filtering of one attribute's value entries:
`(a.values || []).map(v => v?.value ?? v?.text ?? v?.dictionary_value_id).filter(Boolean)`.
`Boolean(undefined)` is false, so entries whose resolution is absent are dropped
together with falsy resolved values; `reduceOption` then strips the (now all
`some`) wrappers, which the JS array never had. -/
def resolvedValues (a : AttrRec) : List JPrim :=
  (((a.values.getD []).map resolveValue).filter
    (fun o => (o.map JPrim.truthy).getD false)).reduceOption

/-- index.js `pickSizeAttributes` (lines 231–244, same logic in
main.js 393–410); `patterns` is the configured `SIZE_ATTR_PATTERNS`.  The
source's push loop is rendered as `filterMap`. -/
def pickSizeAttributes (patterns : List String) (attrsItem : AttrsItem) : List SelAttr :=
  (attrsItem.attributes.getD []).filterMap (fun a =>
    let name := strToLower (jsStr a.name)
    if patterns.any (fun p => strIncludes name p) then
      some { name := a.name, attribute_id := a.attribute_id, values := resolvedValues a }
    else none)

/-- JS `String(x)` of an attribute value, the key the default array sort
compares (integer ids print as in JS). -/
def jsKey : JPrim → String
  | .str s => s
  | .num n => toString n

/-- Lexicographic comparison of character lists by code point, the order JS
string comparison induces (stated structurally so that it is
kernel-computable). -/
def lexLe : List Char → List Char → Bool
  | [], _ => true
  | _ :: _, [] => false
  | a :: as, b :: bs =>
    if a.toNat < b.toNat then true
    else if b.toNat < a.toNat then false
    else lexLe as bs

/-- The default JS sort comparator: lexicographic comparison of string images. -/
def jsRel (a b : JPrim) : Prop := lexLe (jsKey a).data (jsKey b).data = true

instance : DecidableRel jsRel := fun a b =>
  inferInstanceAs (Decidable (lexLe (jsKey a).data (jsKey b).data = true))

/-- The `a.values.slice().sort()` step of `attrFingerprint`: the default JS
sort, a stable sort by string image.  A stable sort is uniquely determined by
its (total, transitive) comparator, so the structurally recursive
`insertionSort` (which keeps an element before comparator-equal ones, i.e. is
stable) computes exactly what the engine's stable sort returns. -/
def sortVals (l : List JPrim) : List JPrim := l.insertionSort jsRel

/-- JSON image of a primitive (escaping of exotic characters inside strings is
not modeled; the claims use plain values only). -/
def JPrim.json : JPrim → String
  | .str s => "\"" ++ s ++ "\""
  | .num n => toString n

/-- JSON image of one normalized attribute, `JSON.stringify` of
`(n: a.name, id: a.attribute_id, v: sorted values)` with braces; keys bound to
`undefined` are omitted by `JSON.stringify`, hence the `Option` matches. -/
def serAttr (a : SelAttr) : String :=
  "\x7b" ++
    (match a.name with
     | some s => "\"n\":\"" ++ s ++ "\","
     | none => "") ++
    (match a.attribute_id with
     | some i => "\"id\":" ++ toString i ++ ","
     | none => "") ++
    "\"v\":[" ++ String.intercalate "," ((sortVals a.values).map JPrim.json) ++ "]" ++
  "\x7d"

/-- Attribute fingerprint (index.js 246–254, main.js 412–420): the canonical
serialization string the source feeds to SHA-256 (see the module comment). -/
def attrFingerprint (arr : List SelAttr) : String :=
  "[" ++ String.intercalate "," (arr.map serAttr) ++ "]"

/-- JSON image of a nullable number (the exact decimal formatting of JS numbers
is immaterial to the claims; only nullness and injectivity are used). -/
def qJson : Option ℚ → String
  | none => "null"
  | some q => toString q

/-- Dimension fingerprint `sizeFingerprint` (index.js 221–229, main.js 383–391):
the canonical serialization string the source feeds to SHA-256. -/
def sizeFingerprint (s : Dims) : String :=
  "\x7b\"d\":" ++ qJson s.depth_mm ++ ",\"w\":" ++ qJson s.width_mm ++
    ",\"h\":" ++ qJson s.height_mm ++ ",\"wg\":" ++ qJson s.weight_g ++ "\x7d"

/-- The `chunk(arr, n)` helper (index.js 310–311, main.js 476–477): groups of
`n` in order, the last group possibly shorter. -/
def chunk (n : Nat) : List α → List (List α)
  | [] => []
  | x :: xs => (x :: xs.take (n - 1)) :: chunk n (xs.drop (n - 1))
termination_by l => l.length
decreasing_by simp [List.length_drop]; omega

/-- Step 1 of both `processBatch` functions (index.js 315–325,
main.js 481–491): the primary bulk-info fetch, falling back on failure to
per-100-chunk `fetchInfoV2` calls with each sub-chunk failure swallowed.  A
fetcher returns `none` when the underlying call throws. -/
def fetchPhase (fetchInfoList fetchInfoV2 : List String → Option (List InfoRec))
    (offerIds : List String) : List InfoRec :=
  match fetchInfoList offerIds with
  | some items => items
  | none => (chunk 100 offerIds).foldl (fun acc bb => acc ++ ((fetchInfoV2 bb).getD [])) []

/-- Step 2 of index.js `processBatch` (lines 327–336): the per-100-chunk
attribute fetch, each chunk's failure caught and swallowed. -/
def attrFetchIndex (fetchAttributesV4 : List String → Option (List AttrsItem))
    (offerIds : List String) : List AttrsItem :=
  (chunk 100 offerIds).foldl (fun acc bb => acc ++ ((fetchAttributesV4 bb).getD [])) []

/-- JS `new Map(items.map(x => [key(x), x])).get(k)`: the last item carrying the
key wins. -/
def mapGet (key : α → Option String) (items : List α) (k : String) : Option α :=
  items.foldl (fun acc x => if key x = some k then some x else acc) none

/-- The `SIZE_TRACKING_MODE` configuration. -/
inductive Mode where
  | DIMENSIONS
  | ATTRIBUTE
  | BOTH
  deriving DecidableEq, Repr

/-- True exactly when the source tests
`SIZE_TRACKING_MODE === 'ATTRIBUTE' || SIZE_TRACKING_MODE === 'BOTH'`. -/
def Mode.attrAware : Mode → Bool
  | .ATTRIBUTE => true
  | .BOTH => true
  | .DIMENSIONS => false

/-- The outward-visible messages sent through `notifyAll`, classified by which
formatter produced them. -/
inductive Notification where
  | newProduct (offer_id : String)
  | dimChange (offer_id : String) (oldDims newDims : Dims)
  | attrChange (offer_id : String)
  | scanError (msg : String)
  deriving DecidableEq, Repr

/-- A row of the index.js `products` table (it has an `attr_hash` column). -/
structure RowIx where
  offer_id : String
  product_id : Int
  name : String
  updated_at : String
  dim_hash : String
  depth_mm : Option ℚ
  width_mm : Option ℚ
  height_mm : Option ℚ
  weight_g : Option ℚ
  attr_hash : Option String
  last_seen_at : Nat
  deriving DecidableEq, Repr

/-- A staged upsert of index.js `processBatch`; `last_seen_at` is filled in by
the SQL with `datetime('now')` at commit time. -/
structure UpsertIx where
  offer_id : String
  product_id : Int
  name : String
  updated_at : String
  dim_hash : String
  depth_mm : Option ℚ
  width_mm : Option ℚ
  height_mm : Option ℚ
  weight_g : Option ℚ
  attr_hash : Option String
  deriving DecidableEq, Repr

/-- The index.js `products` table, keyed by `offer_id`. -/
def DbIx := String → Option RowIx

/-- The row an upsert writes, with `last_seen_at` set to the commit time. -/
def rowOfUpsertIx (now : Nat) (u : UpsertIx) : RowIx :=
  { offer_id := u.offer_id, product_id := u.product_id, name := u.name,
    updated_at := u.updated_at, dim_hash := u.dim_hash, depth_mm := u.depth_mm,
    width_mm := u.width_mm, height_mm := u.height_mm, weight_g := u.weight_g,
    attr_hash := u.attr_hash, last_seen_at := now }

/-- The transactional `txUpsertMany` commit of index.js. -/
def applyUpsertsIx (now : Nat) (db : DbIx) (ups : List UpsertIx) : DbIx :=
  ups.foldl (fun d u k => if k = u.offer_id then some (rowOfUpsertIx now u) else d k) db

/-- The `it.offer_id || it.offerId || it.offer` chain together with the
`if (!offer_id) continue` truthiness guard (index.js 341–342). -/
def computedOfferId (it : InfoRec) : Option String :=
  match jsOrS it.offer_id (jsOrS it.offerId it.offer) with
  | some s => if s = "" then none else some s
  | none => none

/-- The per-item `it.name || ''`. -/
def jsName (it : InfoRec) : String := jsStr it.name

/-- The per-item `it.updated_at || it.updatedAt || ''`. -/
def jsUpdatedAt (it : InfoRec) : String := jsStr (jsOrS it.updated_at it.updatedAt)

/-- The per-item `it.id || it.product_id || 0`. -/
def jsProductId (it : InfoRec) : Int := (jsOrZ it.id (jsOrZ it.product_id (some 0))).getD 0

/-- Result of one iteration of the index.js reconciliation loop: `proceed`
models `continue`/fall-through, `halt` models the early `return` in the
no-baseline branch (index.js line 380), which exits `processBatch` altogether
and in particular skips the final `txUpsertMany` commit. -/
inductive ItemStep where
  | proceed (ups : List UpsertIx) (notifs : List Notification)
  | halt (ups : List UpsertIx) (notifs : List Notification)
  deriving DecidableEq, Repr

/-- Staged upserts of a loop step, for either constructor. -/
def ItemStep.ups : ItemStep → List UpsertIx
  | .proceed u _ => u
  | .halt u _ => u

/-- One iteration of the loop body of index.js `processBatch`
(lines 340–460). -/
def processItemIndex (mode : Mode) (patterns : List String) (notifyOnNew : Bool)
    (attrsItems : List AttrsItem) (db : DbIx) (it : InfoRec) : ItemStep :=
  match computedOfferId it with
  | none => .proceed [] []
  | some offer_id =>
    let name := jsName it
    let updated_at := jsUpdatedAt it
    match db offer_id with
    | none =>
      let dims := extractDims it
      let dimHash := sizeFingerprint dims
      .halt [{ offer_id, product_id := jsProductId it, name := jsName it,
               updated_at := jsUpdatedAt it, dim_hash := dimHash,
               depth_mm := dims.depth_mm, width_mm := dims.width_mm,
               height_mm := dims.height_mm, weight_g := dims.weight_g,
               attr_hash := none }]
        (if notifyOnNew then [.newProduct offer_id] else [])
    | some prev =>
      if prev.updated_at ≠ "" ∧ updated_at ≠ "" ∧ prev.updated_at = updated_at ∧ mode = .DIMENSIONS then
        .proceed [{ offer_id, product_id := jsProductId it, name, updated_at,
                    dim_hash := prev.dim_hash, depth_mm := prev.depth_mm,
                    width_mm := prev.width_mm, height_mm := prev.height_mm,
                    weight_g := prev.weight_g, attr_hash := prev.attr_hash }] []
      else
        let dims := extractDims it
        let dimHash := sizeFingerprint dims
        let attrHash : Option String :=
          if mode.attrAware then
            some (attrFingerprint
              (match mapGet AttrsItem.offer_id attrsItems offer_id with
               | some ai => pickSizeAttributes patterns ai
               | none => []))
          else jsOrS prev.attr_hash none
        let dimNote :=
          if (mode = .DIMENSIONS ∨ mode = .BOTH) ∧ prev.dim_hash ≠ "" ∧ prev.dim_hash ≠ dimHash then
            [Notification.dimChange offer_id
              { depth_mm := prev.depth_mm, width_mm := prev.width_mm,
                height_mm := prev.height_mm, weight_g := prev.weight_g } dims]
          else []
        let attrNote :=
          match prev.attr_hash with
          | some s =>
            if mode.attrAware = true ∧ s ≠ "" ∧ some s ≠ attrHash then
              [Notification.attrChange offer_id]
            else []
          | none => []
        .proceed [{ offer_id, product_id := jsProductId it, name, updated_at,
                    dim_hash := dimHash, depth_mm := dims.depth_mm,
                    width_mm := dims.width_mm, height_mm := dims.height_mm,
                    weight_g := dims.weight_g, attr_hash := attrHash }]
          (dimNote ++ attrNote)

/-- The `for (const it of infoItems)` loop of index.js `processBatch`.  The
boolean is true when the loop ran to completion (no early `return`). -/
def loopIndex (mode : Mode) (patterns : List String) (notifyOnNew : Bool)
    (attrsItems : List AttrsItem) (db : DbIx) :
    List InfoRec → List UpsertIx × List Notification × Bool
  | [] => ([], [], true)
  | it :: rest =>
    match processItemIndex mode patterns notifyOnNew attrsItems db it with
    | .halt ups ns => (ups, ns, false)
    | .proceed ups ns =>
      let r := loopIndex mode patterns notifyOnNew attrsItems db rest
      (ups ++ r.1, ns ++ r.2.1, r.2.2)

/-- index.js `processBatch` (lines 313–464) as a function of the fetch oracles,
configuration, prior DB and commit timestamp; returns the notifications sent
and the DB after the batch.  `txUpsertMany` runs only when the loop completes,
because the early `return` skips it. -/
def processBatchIndex (mode : Mode) (patterns : List String) (notifyOnNew : Bool)
    (fetchInfoList fetchInfoV2 : List String → Option (List InfoRec))
    (fetchAttributesV4 : List String → Option (List AttrsItem))
    (offerIds : List String) (db : DbIx) (now : Nat) : List Notification × DbIx :=
  let infoItems := fetchPhase fetchInfoList fetchInfoV2 offerIds
  let attrsItems := if mode.attrAware then attrFetchIndex fetchAttributesV4 offerIds else []
  let r := loopIndex mode patterns notifyOnNew attrsItems db infoItems
  (r.2.1, if r.2.2 then applyUpsertsIx now db r.1 else db)

/-- A row of the main.js `products` table (no `attr_hash` column). -/
structure RowMain where
  offer_id : String
  product_id : Int
  name : String
  updated_at : String
  dim_hash : String
  depth_mm : Option ℚ
  width_mm : Option ℚ
  height_mm : Option ℚ
  weight_g : Option ℚ
  last_seen_at : Nat
  deriving DecidableEq, Repr

/-- A staged upsert of main.js `processBatch`. -/
structure UpsertMain where
  offer_id : String
  product_id : Int
  name : String
  updated_at : String
  dim_hash : String
  depth_mm : Option ℚ
  width_mm : Option ℚ
  height_mm : Option ℚ
  weight_g : Option ℚ
  deriving DecidableEq, Repr

/-- The main.js `products` table, keyed by `offer_id`. -/
def DbMain := String → Option RowMain

/-- The row a main.js upsert writes at commit time. -/
def rowOfUpsertMain (now : Nat) (u : UpsertMain) : RowMain :=
  { offer_id := u.offer_id, product_id := u.product_id, name := u.name,
    updated_at := u.updated_at, dim_hash := u.dim_hash, depth_mm := u.depth_mm,
    width_mm := u.width_mm, height_mm := u.height_mm, weight_g := u.weight_g,
    last_seen_at := now }

/-- The transactional `txUpsertMany` commit of main.js. -/
def applyUpsertsMain (now : Nat) (db : DbMain) (ups : List UpsertMain) : DbMain :=
  ups.foldl (fun d u k => if k = u.offer_id then some (rowOfUpsertMain now u) else d k) db

/-- The per-offer dimension choice of main.js `processBatch` (lines 511–522):
prefer the v4 attributes-endpoint root fields, falling back to the bulk-info
extraction when all four are null.  The source's guard
`info && Object.keys(info).length` is always true there, because `info`
defaults to `{ offer_id }`, which has one key. -/
def mainDims (info : InfoRec) (attrs : AttrsItem) : Dims :=
  let dims := extractDimsFromAttrsRoot attrs
  let hasAny := [dims.depth_mm, dims.width_mm, dims.height_mm, dims.weight_g].any (fun v => v.isSome)
  if hasAny then dims else extractDimsFromInfo info

/-- One iteration of the `for (const offer_id of offerIds)` loop of main.js
`processBatch` (lines 507–548): missing info records default to
`{ offer_id }`, missing attribute records to `{}`; an upsert is staged for
every identifier. -/
def processItemMain (infoItems : List InfoRec) (attrItems : List AttrsItem)
    (db : DbMain) (offer_id : String) : UpsertMain × List Notification :=
  let info := (mapGet InfoRec.offer_id infoItems offer_id).getD { offer_id := some offer_id }
  let attrs := (mapGet AttrsItem.offer_id attrItems offer_id).getD {}
  let dims := mainDims info attrs
  let newHash := sizeFingerprint dims
  let prev := db offer_id
  let notifs :=
    match prev with
    | some p =>
      if p.dim_hash ≠ "" ∧ p.dim_hash ≠ newHash then
        [Notification.dimChange offer_id
          { depth_mm := p.depth_mm, width_mm := p.width_mm,
            height_mm := p.height_mm, weight_g := p.weight_g } dims]
      else []
    | none => []
  ({ offer_id, product_id := jsProductId info, name := jsStr info.name,
     updated_at := jsUpdatedAt info, dim_hash := newHash,
     depth_mm := dims.depth_mm, width_mm := dims.width_mm,
     height_mm := dims.height_mm, weight_g := dims.weight_g }, notifs)

/-- main.js `processBatch` (lines 479–551).  In attribute-aware modes the
single whole-batch `fetchAttributesV4` call (line 499) is not guarded by any
`try`, so its failure propagates out of `processBatch`, modeled as
`Except.error`. -/
def processBatchMain (mode : Mode)
    (fetchInfoList fetchInfoV2 : List String → Option (List InfoRec))
    (fetchAttributesV4 : List String → Option (List AttrsItem))
    (offerIds : List String) (db : DbMain) (now : Nat) :
    Except Unit (List Notification × DbMain) :=
  let infoItems := fetchPhase fetchInfoList fetchInfoV2 offerIds
  match (if mode.attrAware then fetchAttributesV4 offerIds else some []) with
  | none => .error ()
  | some attrItems =>
    let steps := offerIds.map (processItemMain infoItems attrItems db)
    .ok (steps.foldl (fun acc s => acc ++ s.2) [], applyUpsertsMain now db (steps.map (fun s => s.1)))

/-- Abstract outcome of one `scanOnce` sweep. -/
inductive ScanOutcome where
  | ok
  | fail (msg : String)
  deriving DecidableEq, Repr

/-- Observable result of one scheduler tick: how many sweeps ran, what was
sent through `notifyAll`, and the `isScanning` flag afterwards. -/
structure TickResult where
  scans : Nat
  notifs : List Notification
  scanningAfter : Bool
  deriving DecidableEq, Repr

/-- The scheduler tick of main.js (lines 574–599): the overlap guard returns
immediately when `isScanning` is set; otherwise the flag is raised, the sweep
runs, a failure is reported through the notification channel, and the
`finally` block always clears the flag. -/
def tick (outcome : ScanOutcome) (isScanning : Bool) : TickResult :=
  if isScanning then { scans := 0, notifs := [], scanningAfter := isScanning }
  else
    match outcome with
    | .ok => { scans := 1, notifs := [], scanningAfter := false }
    | .fail msg => { scans := 1, notifs := [Notification.scanError msg], scanningAfter := false }

/-- String image of a value as a character list (used to reason about the
sort order). -/
def jsKeyL (p : JPrim) : List Char := (jsKey p).data

/-- Sample batch for the no-baseline analysis: offer `A` has no stored row. -/
def itC1A : InfoRec := { offer_id := some "A", name := some "Prod A", updated_at := some "TA" }

/-- Stored baseline of offer `B` with dimensions present and hash `H1`. -/
def rowC1B : RowIx :=
  { offer_id := "B", product_id := 1, name := "Prod B", updated_at := "TB1",
    dim_hash := "H1", depth_mm := some 100, width_mm := some 50,
    height_mm := some 20, weight_g := some 300, attr_hash := none, last_seen_at := 0 }

/-- Incoming record for offer `B`, with a changed timestamp and no dimensions,
so its recomputed hash would differ from `H1`. -/
def itC1B : InfoRec := { offer_id := some "B", name := some "Prod B", updated_at := some "TB2" }

/-- Database holding only offer `B`. -/
def dbC1 : DbIx := fun k => if k = "B" then some rowC1B else none

/-- Stored main.js baseline of offer `A` with dimensions present. -/
def rowC2 : RowMain :=
  { offer_id := "A", product_id := 1, name := "Prod A", updated_at := "T1",
    dim_hash := "H1", depth_mm := some 100, width_mm := some 50,
    height_mm := some 20, weight_g := some 300, last_seen_at := 0 }

/-- main.js database holding only offer `A`. -/
def dbC2 : DbMain := fun k => if k = "A" then some rowC2 else none

/-- The all-null upsert main.js stages for an offer no fetch returned. -/
def upC2 : UpsertMain :=
  { offer_id := "A", product_id := 0, name := "", updated_at := "",
    dim_hash := sizeFingerprint ⟨none, none, none, none⟩,
    depth_mm := none, width_mm := none, height_mm := none, weight_g := none }

/-- Stored index.js baseline of offer `A` whose name is `OLD`. -/
def rowC4 : RowIx :=
  { offer_id := "A", product_id := 1, name := "OLD", updated_at := "T1",
    dim_hash := "H1", depth_mm := some 100, width_mm := some 50,
    height_mm := some 20, weight_g := some 300, attr_hash := some "AH", last_seen_at := 0 }

/-- Incoming record for offer `A`: same timestamp `T1`, but the name changed to
`NEW` and the product id to 2. -/
def itC4 : InfoRec := { offer_id := some "A", id := some 2, name := some "NEW", updated_at := some "T1" }

/-- Database holding only offer `A` (index.js layout). -/
def dbC4 : DbIx := fun k => if k = "A" then some rowC4 else none

/-- The fast-path upsert staged for `itC4`: dimensions, hashes and timestamp
carried from the prior row, name and product id taken from the incoming
record. -/
def upC4 : UpsertIx :=
  { offer_id := "A", product_id := 2, name := "NEW", updated_at := "T1",
    dim_hash := "H1", depth_mm := some 100, width_mm := some 50,
    height_mm := some 20, weight_g := some 300, attr_hash := some "AH" }

/-- Stored baseline of offer `B` whose `updated_at` is the empty string. -/
def rowC4b : RowIx :=
  { offer_id := "B", product_id := 1, name := "P", updated_at := "",
    dim_hash := "H1", depth_mm := some 100, width_mm := some 50,
    height_mm := some 20, weight_g := some 300, attr_hash := none, last_seen_at := 0 }

/-- Incoming record for offer `B` with no `updated_at` (so it reads as `""`,
equal to the stored one) and no dimension data. -/
def itC4b : InfoRec := { offer_id := some "B", name := some "P" }

/-- Database holding only offer `B` (index.js layout). -/
def dbC4b : DbIx := fun k => if k = "B" then some rowC4b else none

/-- The recomputed upsert staged for `itC4b`: all-null dimensions and their
hash, despite the unchanged (empty) timestamp. -/
def upC4b : UpsertIx :=
  { offer_id := "B", product_id := 0, name := "P", updated_at := "",
    dim_hash := sizeFingerprint ⟨none, none, none, none⟩,
    depth_mm := none, width_mm := none, height_mm := none, weight_g := none,
    attr_hash := none }

/-- Stored main.js baseline of offer `A` with timestamp `T1`. -/
def rowC4m : RowMain :=
  { offer_id := "A", product_id := 1, name := "P", updated_at := "T1",
    dim_hash := "H1", depth_mm := some 100, width_mm := some 50,
    height_mm := some 20, weight_g := some 300, last_seen_at := 0 }

/-- Incoming main.js record for offer `A` with the same timestamp `T1` and no
dimension data. -/
def infoC4m : InfoRec := { offer_id := some "A", name := some "P", updated_at := some "T1" }

/-- main.js database holding only offer `A`. -/
def dbC4m : DbMain := fun k => if k = "A" then some rowC4m else none

/-- The upsert main.js stages for `infoC4m`, recomputed from scratch although
the timestamp is unchanged. -/
def upC4m : UpsertMain :=
  { offer_id := "A", product_id := 0, name := "P", updated_at := "T1",
    dim_hash := sizeFingerprint ⟨none, none, none, none⟩,
    depth_mm := none, width_mm := none, height_mm := none, weight_g := none }

/-- Bulk-info record with a direct weight field under an unrecognized unit
(value passes through). -/
def infoC3 : InfoRec := { weight := some 5, weight_unit := some "zz" }

/-- Attributes-endpoint record whose root weight conflicts with `infoC3`. -/
def attrsC3 : AttrsItem := { weight := some 7, weight_unit := some "zz" }

/-- Bulk-info record with a direct depth and a conflicting nested depth, both
under unrecognized units. -/
def itC5 : InfoRec :=
  { depth := some 5, dimension_unit := some "zz",
    dimensions := some { depth := some 9, unit := some "zz" } }

/-- One attribute item used to exercise the per-group attribute fetch. -/
def aiC6 : AttrsItem := { offer_id := some "A" }

/-- A size attribute whose entries all resolve to falsy values: an empty
string, the dictionary id 0, and an entry with no resolvable field. -/
def attrC10 : AttrRec :=
  { name := some "Size info", attribute_id := some 9533,
    values := some [ { value := some (JPrim.str "") },
                     { dictionary_value_id := some (JPrim.num 0) },
                     { } ] }

/-- A size attribute mixing one truthy and one falsy entry. -/
def attrC10b : AttrRec :=
  { name := some "size", attribute_id := some 10,
    values := some [ { value := some (JPrim.str "36") },
                     { value := some (JPrim.str "") } ] }

/-- C1: in index.js `processBatch` the no-baseline branch ends in `return`
(line 380) although its own comment says to move on to the next item.  On a
batch whose first fetched offer `A` has no baseline, `processBatch` exits
before `txUpsertMany`, so the upsert staged for `A` is never committed (`A`
stays absent from the DB), offer `B` later in the batch — whose dimensions
changed — is neither diffed nor updated, and no notification is emitted. -/
theorem c1_return_bug :
    processBatchIndex .DIMENSIONS [] false (fun _ => some [itC1A, itC1B])
      (fun _ => none) (fun _ => none) ["A", "B"] dbC1 7 = ([], dbC1)
    ∧ dbC1 "A" = none ∧ dbC1 "B" = some rowC1B :=
  ⟨rfl, rfl, rfl⟩

/-- C3: the two extraction pipelines are not extensionally equal: for the
payload pair `infoC3` / `attrsC3`, whose weight fields conflict (5 versus 7,
both non-null after normalization), index.js (`extractDims` over the bulk-info
record only) yields weight 5 while main.js (attributes-endpoint root first,
`mainDims`) yields weight 7. -/
theorem c3_pipelines_diverge :
    ∃ (info : InfoRec) (attrs : AttrsItem),
      (extractDims info).weight_g ≠ none ∧ (mainDims info attrs).weight_g ≠ none ∧
      mainDims info attrs ≠ extractDims info :=
  ⟨infoC3, attrsC3, by decide, by decide, by decide⟩

/-- C9: a tick arriving while a scan is in progress runs no sweep, emits no
notification and leaves the state untouched (dropped, not queued); a tick from
idle — whether the sweep succeeds or fails — always returns the scheduler to
idle, so a subsequent tick runs a sweep normally. -/
theorem c9_overlap_guard :
    (∀ o, tick o true = { scans := 0, notifs := [], scanningAfter := true })
    ∧ (∀ o, (tick o false).scanningAfter = false)
    ∧ (∀ o o2, (tick o2 (tick o false).scanningAfter).scans = 1) := by
  refine ⟨fun o => rfl, fun o => ?_, fun o o2 => ?_⟩
  · cases o <;> rfl
  · cases o <;> cases o2 <;> rfl

/-- C6 counterexample: in main.js, with an attribute-aware mode and a failing
whole-batch attribute fetch, the exception propagates out of `processBatch`
(the claim says it never does). -/
theorem c6_counterexample :
    processBatchMain .ATTRIBUTE (fun _ => some []) (fun _ => none) (fun _ => none)
      ["A"] (fun _ => none) 7 = .error () := rfl

/-- C8 counterexample: two value lists with the same multiset — a number `120`
and a string `"120"`, swapped — hash differently, because the stable sort
compares their (equal) string images, keeps the input order, and the JSON
serialization then distinguishes `120` from `"120"`. -/
theorem c8_counterexample :
    [JPrim.num 120, JPrim.str "120"].Perm [JPrim.str "120", JPrim.num 120]
    ∧ attrFingerprint [⟨some "size", some 7, [JPrim.num 120, JPrim.str "120"]⟩]
        ≠ attrFingerprint [⟨some "size", some 7, [JPrim.str "120", JPrim.num 120]⟩] :=
  ⟨by decide, by decide⟩

/-- C2 counterexample: in main.js, for offer `A` that neither fetch returned
(primary yields no record, fallback unused), `processBatch` still stages an
all-null upsert, emits a spurious dimension-change notification against the
stored baseline, and the commit overwrites the baseline row. -/
theorem c2_counterexample :
    processBatchMain .DIMENSIONS (fun _ => some []) (fun _ => none) (fun _ => some [])
      ["A"] dbC2 7
      = .ok ([Notification.dimChange "A" ⟨some 100, some 50, some 20, some 300⟩
                ⟨none, none, none, none⟩],
             applyUpsertsMain 7 dbC2 [upC2])
    ∧ applyUpsertsMain 7 dbC2 [upC2] "A" ≠ dbC2 "A" :=
  ⟨rfl, by decide⟩

/-- C4 counterexample: (a) in the index.js fast path the staged upsert's name
is taken from the incoming record (`NEW`), not carried from the prior row
(`OLD`), so not all prior fields are carried forward; (b) with both timestamps
empty — hence equal — the fast path is skipped: the row is recomputed and a
dimension-change notification fires; (c) main.js has no fast path at all: with
an unchanged timestamp `T1` it still recomputes and notifies. -/
theorem c4_counterexample :
    (processItemIndex .DIMENSIONS [] false [] dbC4 itC4 = .proceed [upC4] []
      ∧ upC4.name ≠ rowC4.name)
    ∧ processItemIndex .DIMENSIONS [] false [] dbC4b itC4b
        = .proceed [upC4b]
            [Notification.dimChange "B" ⟨some 100, some 50, some 20, some 300⟩
              ⟨none, none, none, none⟩]
    ∧ processBatchMain .DIMENSIONS (fun _ => some [infoC4m]) (fun _ => none) (fun _ => some [])
        ["A"] dbC4m 7
        = .ok ([Notification.dimChange "A" ⟨some 100, some 50, some 20, some 300⟩
                  ⟨none, none, none, none⟩],
               applyUpsertsMain 7 dbC4m [upC4m]) :=
  ⟨⟨rfl, by decide⟩, rfl, rfl⟩

/-- C7 counterexample: for the unrecognized unit `xx` the source returns the
value unrounded (`return +x`), so `mm` can return a number that is not a
two-decimal quantity. -/
theorem c7_counterexample :
    mm (some (1234/1000 : ℚ)) (some "xx") = some (1234/1000)
    ∧ ¬ ∃ z : ℤ, (1234/1000 : ℚ) = (z : ℚ) / 100 := by
  refine ⟨rfl, ?_⟩
  rintro ⟨z, hz⟩
  field_simp at hz
  have h2 : (1234 * 100 : ℤ) = z * 1000 := by exact_mod_cast hz
  omega

/-- Helper: the non-empty-filter test in the extractors is exactly the
existence of a non-null field in the candidate. -/
theorem filterSome_ne_zero (d : Dims) :
    ([d.depth_mm, d.width_mm, d.height_mm, d.weight_g].filter (fun v => v.isSome)).length ≠ 0 ↔
      (d.depth_mm ≠ none ∨ d.width_mm ≠ none ∨ d.height_mm ≠ none ∨ d.weight_g ≠ none) := by
  rcases d with ⟨a, b, c, e⟩
  cases a <;> cases b <;> cases c <;> cases e <;> simp

/-- C5: source-priority tie-break.  For a bulk-info record whose direct-fields
candidate yields at least one non-null normalized value while the nested
candidate conflicts with it, both `extractDims` (index.js) and
`extractDimsFromInfo` (main.js) return the direct-fields candidate in all four
fields — no merging with the nested candidate. -/
theorem c5_direct_priority (it : InfoRec)
    (h : (maybe (directOf it)).depth_mm ≠ none ∨ (maybe (directOf it)).width_mm ≠ none ∨
         (maybe (directOf it)).height_mm ≠ none ∨ (maybe (directOf it)).weight_g ≠ none)
    (_hconf : maybe (nestedOf it) ≠ maybe (directOf it)) :
    extractDims it = maybe (directOf it) ∧ extractDimsFromInfo it = maybe (directOf it) := by
  constructor
  · show (if _ then _ else _) = _
    rw [if_pos ((filterSome_ne_zero _).mpr h)]
  · show (if _ then _ else _) = _
    rw [if_pos ((filterSome_ne_zero _).mpr h)]

/-- C5 witness: `itC5` has a direct depth of 5 (unrecognized unit, passthrough)
and a conflicting nested depth of 9, and the extraction returns the direct
candidate. -/
theorem c5_witness :
    ((maybe (directOf itC5)).depth_mm ≠ none ∨ (maybe (directOf itC5)).width_mm ≠ none ∨
      (maybe (directOf itC5)).height_mm ≠ none ∨ (maybe (directOf itC5)).weight_g ≠ none)
    ∧ maybe (nestedOf itC5) ≠ maybe (directOf itC5)
    ∧ extractDims itC5 = maybe (directOf itC5) :=
  ⟨by decide, by decide, (c5_direct_priority itC5 (by decide) (by decide)).1⟩

/-- C7 (amended): rounding applies to the recognized units and to the
absent/empty unit — `mm`, `cm`, `m` and `""` round to two decimals, `g`, `kg`
and `""` to one — while an unrecognized unit passes the value through
unrounded. -/
theorem c7_rounding :
    (∀ (val : Option ℚ) (unit : Option String) (r : ℚ),
        (strToLower (unit.getD "") = "mm" ∨ strToLower (unit.getD "") = "cm" ∨
         strToLower (unit.getD "") = "m" ∨ strToLower (unit.getD "") = "") →
        mm val unit = some r → ∃ z : ℤ, r = (z : ℚ) / 100)
    ∧ (∀ (val : Option ℚ) (unit : Option String) (r : ℚ),
        (strToLower (unit.getD "") = "g" ∨ strToLower (unit.getD "") = "kg" ∨
         strToLower (unit.getD "") = "") →
        grams val unit = some r → ∃ z : ℤ, r = (z : ℚ) / 10) := by
  constructor
  · rintro val unit r hu h
    cases val with
    | none => exact absurd h (by simp [mm])
    | some x =>
      have hcase : mm (some x) unit = some (toFixed2 x) ∨
          mm (some x) unit = some (toFixed2 (x * 10)) ∨
          mm (some x) unit = some (toFixed2 (x * 1000)) := by
        rcases hu with hu | hu | hu | hu <;> simp [mm, hu]
      rcases hcase with hc | hc | hc
      · exact ⟨round (x * 100), by rw [Option.some.inj (h.symm.trans hc)]; rfl⟩
      · exact ⟨round (x * 10 * 100), by rw [Option.some.inj (h.symm.trans hc)]; rfl⟩
      · exact ⟨round (x * 1000 * 100), by rw [Option.some.inj (h.symm.trans hc)]; rfl⟩
  · rintro val unit r hu h
    cases val with
    | none => exact absurd h (by simp [grams])
    | some x =>
      have hcase : grams (some x) unit = some (toFixed1 x) ∨
          grams (some x) unit = some (toFixed1 (x * 1000)) := by
        rcases hu with hu | hu | hu <;> simp [grams, hu]
      rcases hcase with hc | hc
      · exact ⟨round (x * 10), by rw [Option.some.inj (h.symm.trans hc)]; rfl⟩
      · exact ⟨round (x * 1000 * 10), by rw [Option.some.inj (h.symm.trans hc)]; rfl⟩

/-- C7 witness: a recognized unit at a concrete value, with the rounded result
a two-decimal quantity. -/
theorem c7_witness :
    (strToLower ((some "mm").getD "") = "mm" ∨ strToLower ((some "mm").getD "") = "cm" ∨
      strToLower ((some "mm").getD "") = "m" ∨ strToLower ((some "mm").getD "") = "")
    ∧ mm (some 5) (some "mm") = some (toFixed2 5)
    ∧ ∃ z : ℤ, toFixed2 5 = (z : ℚ) / 100 :=
  ⟨Or.inl (by decide), rfl,
    c7_rounding.1 (some 5) (some "mm") (toFixed2 5) (Or.inl (by decide)) rfl⟩

/-- C4 (amended): in index.js, for an offer with an existing baseline, when the
mode is dimensions-only and the stored and incoming `updated_at` are non-empty
and equal, the staged upsert carries `depth_mm`, `width_mm`, `height_mm`,
`weight_g`, `dim_hash` and `attr_hash` byte-identical from the prior row and
keeps `updated_at`, while `lastSeenAt` is refreshed at commit time and `name`
and `product_id` are taken from the incoming record; no recomputation result is
used and no notification is emitted for that offer.  (main.js has no such fast
path; see the counterexample.) -/
theorem c4_fastpath_index (patterns : List String) (notifyOnNew : Bool)
    (attrsItems : List AttrsItem) (db : DbIx) (it : InfoRec) (oid : String) (prev : RowIx)
    (hoid : computedOfferId it = some oid) (hprev : db oid = some prev)
    (h1 : prev.updated_at ≠ "") (h2 : jsUpdatedAt it ≠ "")
    (heq : prev.updated_at = jsUpdatedAt it) :
    processItemIndex .DIMENSIONS patterns notifyOnNew attrsItems db it =
      .proceed [{ offer_id := oid, product_id := jsProductId it, name := jsName it,
                  updated_at := jsUpdatedAt it, dim_hash := prev.dim_hash,
                  depth_mm := prev.depth_mm, width_mm := prev.width_mm,
                  height_mm := prev.height_mm, weight_g := prev.weight_g,
                  attr_hash := prev.attr_hash }] []
    ∧ (∀ now u, (rowOfUpsertIx now u).last_seen_at = now) := by
  refine ⟨?_, fun now u => rfl⟩
  simp only [processItemIndex, hoid, hprev]
  rw [if_pos ⟨h1, h2, heq, trivial⟩]

/-- C4 witness: the fast path at the concrete baseline `rowC4` and incoming
record `itC4` (same non-empty timestamp `T1`). -/
theorem c4_witness :
    processItemIndex .DIMENSIONS [] false [] dbC4 itC4 =
      .proceed [{ offer_id := "A", product_id := jsProductId itC4, name := jsName itC4,
                  updated_at := jsUpdatedAt itC4, dim_hash := rowC4.dim_hash,
                  depth_mm := rowC4.depth_mm, width_mm := rowC4.width_mm,
                  height_mm := rowC4.height_mm, weight_g := rowC4.weight_g,
                  attr_hash := rowC4.attr_hash }] [] :=
  (c4_fastpath_index [] false [] dbC4 itC4 "A" rowC4 rfl rfl (by decide) (by decide) rfl).1

/-- Helper: a committed batch leaves every key untouched that none of its
upserts carries. -/
theorem applyUpsertsIx_other (now : Nat) (o : String) :
    ∀ (ups : List UpsertIx) (db : DbIx), (∀ u ∈ ups, u.offer_id ≠ o) →
      applyUpsertsIx now db ups o = db o
  | [], _, _ => rfl
  | u :: t, db, h => by
    have h1 : u.offer_id ≠ o := h u (by simp)
    show applyUpsertsIx now (fun k => if k = u.offer_id then some (rowOfUpsertIx now u) else db k) t o = db o
    rw [applyUpsertsIx_other now o t _ (fun v hv => h v (by simp [hv]))]
    exact if_neg (fun hc => h1 hc.symm)

/-- Helper: every upsert the index.js loop body stages carries the item's
computed offer identifier. -/
theorem processItemIndex_ids (mode : Mode) (patterns : List String) (notifyOnNew : Bool)
    (attrsItems : List AttrsItem) (db : DbIx) (it : InfoRec) :
    ∀ u ∈ (processItemIndex mode patterns notifyOnNew attrsItems db it).ups,
      computedOfferId it = some u.offer_id := by
  intro u hu
  cases hoid : computedOfferId it with
  | none => simp [processItemIndex, hoid, ItemStep.ups] at hu
  | some oid =>
    cases hdb : db oid with
    | none =>
      simp [processItemIndex, hoid, hdb, ItemStep.ups] at hu
      rw [hu]
    | some prev =>
      by_cases hc : prev.updated_at ≠ "" ∧ jsUpdatedAt it ≠ "" ∧
          prev.updated_at = jsUpdatedAt it ∧ mode = .DIMENSIONS
      · simp only [processItemIndex, hoid, hdb, if_pos hc, ItemStep.ups, List.mem_singleton] at hu
        rw [hu]
      · simp only [processItemIndex, hoid, hdb, if_neg hc, ItemStep.ups, List.mem_singleton] at hu
        rw [hu]

/-- Helper: every upsert the index.js loop collects comes from some item of the
batch, keyed by that item's computed offer identifier. -/
theorem loopIndex_ids (mode : Mode) (patterns : List String) (notifyOnNew : Bool)
    (attrsItems : List AttrsItem) (db : DbIx) :
    ∀ (items : List InfoRec) (u : UpsertIx),
      u ∈ (loopIndex mode patterns notifyOnNew attrsItems db items).1 →
      ∃ it ∈ items, computedOfferId it = some u.offer_id := by
  intro items
  induction items with
  | nil => intro u hu; simp [loopIndex] at hu
  | cons it rest ih =>
    intro u hu
    rw [loopIndex] at hu
    cases hstep : processItemIndex mode patterns notifyOnNew attrsItems db it with
    | halt ups ns =>
      rw [hstep] at hu
      simp at hu
      exact ⟨it, by simp, processItemIndex_ids mode patterns notifyOnNew attrsItems db it u
        (by rw [hstep]; exact hu)⟩
    | proceed ups ns =>
      rw [hstep] at hu
      simp at hu
      rcases hu with h | h
      · exact ⟨it, by simp, processItemIndex_ids mode patterns notifyOnNew attrsItems db it u
          (by rw [hstep]; exact h)⟩
      · obtain ⟨it2, hit2, hid⟩ := ih u h
        exact ⟨it2, by simp [hit2], hid⟩

/-- C2 (amended): in the first implementation (index.js `processBatch`), for
every offer identifier for which neither the primary bulk-info fetch nor the
fallback sub-chunk fetch produced a record, no staged upsert carries that
identifier and its stored baseline row is unchanged after the batch.  (main.js
instead stages an all-null upsert for every identifier of the batch; see the
counterexample.) -/
theorem c2_unfetched_offer_frame (mode : Mode) (patterns : List String) (notifyOnNew : Bool)
    (f1 f2 : List String → Option (List InfoRec)) (fa : List String → Option (List AttrsItem))
    (offerIds : List String) (db : DbIx) (now : Nat) (o : String)
    (h : ∀ it ∈ fetchPhase f1 f2 offerIds, computedOfferId it ≠ some o) :
    (processBatchIndex mode patterns notifyOnNew f1 f2 fa offerIds db now).2 o = db o := by
  unfold processBatchIndex
  set ai := (if mode.attrAware then attrFetchIndex fa offerIds else []) with hai
  set r := loopIndex mode patterns notifyOnNew ai db (fetchPhase f1 f2 offerIds) with hr
  show (if r.2.2 then applyUpsertsIx now db r.1 else db) o = db o
  by_cases hc : r.2.2
  · rw [if_pos hc]
    apply applyUpsertsIx_other
    intro u hu heq
    obtain ⟨it, hit, hid⟩ := loopIndex_ids mode patterns notifyOnNew ai db _ u (by rw [← hr]; exact hu)
    exact h it hit (by rw [hid, heq])
  · rw [if_neg hc]

/-- C2 witness: a batch over offer `A` whose fetches return nothing leaves the
(empty) database unchanged at `A`. -/
theorem c2_witness :
    (∀ it ∈ fetchPhase (fun _ => some []) (fun _ => none) ["A"], computedOfferId it ≠ some "A")
    ∧ (processBatchIndex .DIMENSIONS [] false (fun _ => some []) (fun _ => none)
        (fun _ => some []) ["A"] (fun _ => none) 7).2 "A" = (none : Option RowIx) :=
  ⟨by simp [fetchPhase],
   c2_unfetched_offer_frame .DIMENSIONS [] false (fun _ => some []) (fun _ => none)
     (fun _ => some []) ["A"] (fun _ => none) 7 "A" (by simp [fetchPhase])⟩

/-- Helper: folding list appends preserves membership of the accumulator. -/
theorem foldl_append_mem_acc {α β : Type} (g : β → List α) (l : List β) (acc : List α) (x : α)
    (hx : x ∈ acc) : x ∈ l.foldl (fun a b => a ++ g b) acc := by
  induction l generalizing acc with
  | nil => exact hx
  | cons b t ih => exact ih _ (List.mem_append_left _ hx)

/-- Helper: folding list appends collects every group's items. -/
theorem foldl_append_mem {α β : Type} (g : β → List α) (bb : β) (x : α) (hx : x ∈ g bb) :
    ∀ (l : List β) (acc : List α), bb ∈ l → x ∈ l.foldl (fun a b => a ++ g b) acc
  | [], _, hbb => absurd hbb (List.not_mem_nil bb)
  | c :: t, acc, hbb => by
    rcases List.mem_cons.mp hbb with hcb | hbb2
    · subst hcb
      exact foldl_append_mem_acc g t (acc ++ g bb) x (List.mem_append_right _ hx)
    · exact foldl_append_mem g bb x hx t (acc ++ g c) hbb2

/-- C6 (amended): in the first implementation (index.js), the attribute-bulk
fetch runs per 100-identifier group, a failing group is skipped (the catch
swallows it, and `attrFetchIndex` is total, so nothing propagates out of
`processBatch`), and every successfully fetched group still contributes all
its items to the processed attribute set.  (main.js instead issues a single
unguarded whole-batch call whose failure propagates; see the
counterexample.) -/
theorem c6_group_isolation (fa : List String → Option (List AttrsItem)) (ids : List String)
    (bb : List String) (xs : List AttrsItem)
    (hbb : bb ∈ chunk 100 ids) (hfa : fa bb = some xs) :
    ∀ x ∈ xs, x ∈ attrFetchIndex fa ids := by
  intro x hx
  unfold attrFetchIndex
  refine foldl_append_mem (fun b => (fa b).getD []) bb x ?_ (chunk 100 ids) [] hbb
  show x ∈ (fa bb).getD []
  rw [hfa]
  exact hx

/-- C6 witness: with a single group `["A"]` whose fetch succeeds, its item is
in the collected attribute set. -/
theorem c6_witness :
    ["A"] ∈ chunk 100 ["A"]
    ∧ (fun l => if l = ["A"] then some [aiC6] else none) ["A"] = some [aiC6]
    ∧ aiC6 ∈ attrFetchIndex (fun l => if l = ["A"] then some [aiC6] else none) ["A"] :=
  ⟨by simp [chunk], rfl,
   c6_group_isolation (fun l => if l = ["A"] then some [aiC6] else none) ["A"] ["A"] [aiC6]
     (by simp [chunk]) rfl aiC6 (by simp)⟩

/-- Helper: the lexicographic comparator is total. -/
theorem lexLe_total : ∀ x y, lexLe x y = true ∨ lexLe y x = true := by
  intro x
  induction x with
  | nil => intro y; exact Or.inl rfl
  | cons a as ih =>
    intro y
    cases y with
    | nil => exact Or.inr rfl
    | cons b bs =>
      by_cases h1 : a.toNat < b.toNat
      · left; simp [lexLe, h1]
      · by_cases h2 : b.toNat < a.toNat
        · right; simp [lexLe, h2]
        · rcases ih bs with h | h
          · left; simp [lexLe, h1, h2, h]
          · right; simp [lexLe, h1, h2, h]

/-- Helper: the lexicographic comparator is transitive. -/
theorem lexLe_trans : ∀ x y z, lexLe x y = true → lexLe y z = true → lexLe x z = true := by
  intro x
  induction x with
  | nil => intro y z _ _; rfl
  | cons a as ih =>
    intro y z hxy hyz
    cases y with
    | nil => simp [lexLe] at hxy
    | cons b bs =>
      cases z with
      | nil => simp [lexLe] at hyz
      | cons c cs =>
        rcases Nat.lt_trichotomy a.toNat b.toNat with hab | hab | hab <;>
          rcases Nat.lt_trichotomy b.toNat c.toNat with hbc | hbc | hbc
        · simp [lexLe, show a.toNat < c.toNat by omega]
        · simp [lexLe, show a.toNat < c.toNat by omega]
        · simp [lexLe, hbc, show ¬ b.toNat < c.toNat by omega] at hyz
        · simp [lexLe, show a.toNat < c.toNat by omega]
        · simp [lexLe, show ¬ a.toNat < b.toNat by omega,
            show ¬ b.toNat < a.toNat by omega] at hxy
          simp [lexLe, show ¬ b.toNat < c.toNat by omega,
            show ¬ c.toNat < b.toNat by omega] at hyz
          simp [lexLe, show ¬ a.toNat < c.toNat by omega,
            show ¬ c.toNat < a.toNat by omega]
          exact ih bs cs hxy hyz
        · simp [lexLe, hbc, show ¬ b.toNat < c.toNat by omega] at hyz
        · simp [lexLe, hab, show ¬ a.toNat < b.toNat by omega] at hxy
        · simp [lexLe, hab, show ¬ a.toNat < b.toNat by omega] at hxy
        · simp [lexLe, hab, show ¬ a.toNat < b.toNat by omega] at hxy

/-- Helper: the lexicographic comparator is antisymmetric. -/
theorem lexLe_antisymm : ∀ x y, lexLe x y = true → lexLe y x = true → x = y := by
  intro x
  induction x with
  | nil =>
    intro y _ hyx
    cases y with
    | nil => rfl
    | cons b bs => simp [lexLe] at hyx
  | cons a as ih =>
    intro y hxy hyx
    cases y with
    | nil => simp [lexLe] at hxy
    | cons b bs =>
      rcases Nat.lt_trichotomy a.toNat b.toNat with h | h | h
      · simp [lexLe, h, show ¬ b.toNat < a.toNat by omega] at hyx
      · have hab : a = b := Char.ext (UInt32.toNat.inj h)
        subst hab
        simp [lexLe, show ¬ a.toNat < a.toNat by omega] at hxy hyx
        rw [ih bs hxy hyx]
      · simp [lexLe, h, show ¬ a.toNat < b.toNat by omega] at hxy

/-- Helper: a permutation with equal string-image lists and value-injective
string images is an equality. -/
theorem eq_of_perm_of_map_eq :
    ∀ {l1 l2 : List JPrim}, l1.Perm l2 → l1.map jsKeyL = l2.map jsKeyL →
      (∀ x ∈ l1, ∀ y ∈ l1, jsKeyL x = jsKeyL y → x = y) → l1 = l2 := by
  intro l1
  induction l1 with
  | nil =>
    intro l2 hp _ _
    exact (hp.symm.eq_nil).symm
  | cons a t1 ih =>
    intro l2 hp hm hinj
    cases l2 with
    | nil => exact absurd hp.eq_nil (by simp)
    | cons b t2 =>
      simp only [List.map_cons, List.cons.injEq] at hm
      have hbmem : b ∈ a :: t1 := hp.mem_iff.mpr (by simp)
      have hab : a = b := hinj a (by simp) b hbmem hm.1
      subst hab
      have hp2 : t1.Perm t2 := hp.cons_inv
      have ht : t1 = t2 :=
        ih hp2 hm.2 (fun x hx y hy h => hinj x (by simp [hx]) y (by simp [hy]) h)
      rw [ht]

/-- Helper: the sorted values are sorted with respect to the JS comparator. -/
theorem sortVals_sorted (l : List JPrim) : (sortVals l).Pairwise jsRel := by
  haveI : IsTotal JPrim jsRel := ⟨fun a b => lexLe_total (jsKeyL a) (jsKeyL b)⟩
  haveI : IsTrans JPrim jsRel := ⟨fun a b c => lexLe_trans (jsKeyL a) (jsKeyL b) (jsKeyL c)⟩
  exact List.sorted_insertionSort jsRel l

/-- Helper: sorting is a permutation. -/
theorem sortVals_perm (l : List JPrim) : (sortVals l).Perm l :=
  List.perm_insertionSort jsRel l

/-- Helper: on value lists whose string images are injective, the stable sort
depends only on the multiset of values. -/
theorem sortVals_congr (l1 l2 : List JPrim) (hp : l1.Perm l2)
    (hinj : ∀ x ∈ l1, ∀ y ∈ l1, jsKey x = jsKey y → x = y) :
    sortVals l1 = sortVals l2 := by
  have hp2 : (sortVals l1).Perm (sortVals l2) :=
    (sortVals_perm l1).trans (hp.trans (sortVals_perm l2).symm)
  have hs1 : ((sortVals l1).map jsKeyL).Pairwise (fun x y => lexLe x y = true) :=
    List.Pairwise.map jsKeyL (fun _ _ h => h) (sortVals_sorted l1)
  have hs2 : ((sortVals l2).map jsKeyL).Pairwise (fun x y => lexLe x y = true) :=
    List.Pairwise.map jsKeyL (fun _ _ h => h) (sortVals_sorted l2)
  have hkeys : (sortVals l1).map jsKeyL = (sortVals l2).map jsKeyL := by
    haveI : IsAntisymm (List Char) (fun x y => lexLe x y = true) :=
      ⟨fun a b => lexLe_antisymm a b⟩
    exact List.eq_of_perm_of_sorted (hp2.map jsKeyL) hs1 hs2
  refine eq_of_perm_of_map_eq hp2 hkeys ?_
  intro x hx y hy h
  exact hinj x ((sortVals_perm l1).subset hx) y ((sortVals_perm l1).subset hy) (String.ext h)

/-- Helper: the serialization of one attribute depends only on its name, id and
sorted value list. -/
theorem serAttr_congr (a b : SelAttr) (hn : a.name = b.name)
    (hid : a.attribute_id = b.attribute_id) (hv : sortVals a.values = sortVals b.values) :
    serAttr a = serAttr b := by
  simp [serAttr, hn, hid, hv]

/-- C8 (amended): `sizeFingerprint` is equality-respecting — field-wise equal
canonical dimension records hash identically; and `attrFingerprint` is
invariant under reordering the values inside each attribute (same names, same
ids, same value multisets, same attribute order) whenever no two distinct
values of an attribute share the same string image.  (With a shared string
image — e.g. the number 120 and the string "120" — the stable sort preserves
their relative order and the serialization distinguishes them, so the hashes
can differ; see the counterexample.) -/
theorem c8_fingerprint_determinism :
    (∀ d1 d2 : Dims, d1.depth_mm = d2.depth_mm → d1.width_mm = d2.width_mm →
      d1.height_mm = d2.height_mm → d1.weight_g = d2.weight_g →
      sizeFingerprint d1 = sizeFingerprint d2)
    ∧ (∀ l1 l2 : List SelAttr,
        List.Forall₂ (fun a b => a.name = b.name ∧ a.attribute_id = b.attribute_id ∧
          a.values.Perm b.values ∧
          (∀ x ∈ a.values, ∀ y ∈ a.values, jsKey x = jsKey y → x = y)) l1 l2 →
        attrFingerprint l1 = attrFingerprint l2) := by
  constructor
  · intro d1 d2 h1 h2 h3 h4
    have hd : d1 = d2 := by
      cases d1; cases d2
      simp_all
    rw [hd]
  · intro l1 l2 h
    have hmap : l1.map serAttr = l2.map serAttr := by
      induction h with
      | nil => rfl
      | cons hrel _ ih =>
        obtain ⟨hn, hid, hperm, hinj⟩ := hrel
        simp [serAttr_congr _ _ hn hid (sortVals_congr _ _ hperm hinj), ih]
    simp [attrFingerprint, hmap]

/-- C8 witness: equal dimension records hash equal, and a pure value
reordering inside an attribute with distinct string images leaves the
attribute fingerprint unchanged. -/
theorem c8_witness :
    sizeFingerprint ⟨some 5, none, none, none⟩ = sizeFingerprint ⟨some 5, none, none, none⟩
    ∧ attrFingerprint [⟨some "size", some 7, [JPrim.str "b", JPrim.str "a"]⟩]
        = attrFingerprint [⟨some "size", some 7, [JPrim.str "a", JPrim.str "b"]⟩] :=
  ⟨c8_fingerprint_determinism.1 _ _ rfl rfl rfl rfl,
   c8_fingerprint_determinism.2 _ _
     (List.Forall₂.cons ⟨rfl, rfl, by decide, by decide⟩ List.Forall₂.nil)⟩

/-- Helper: every value surviving `pickSizeAttributes`'s filter is truthy. -/
theorem resolvedValues_truthy (a : AttrRec) : ∀ p ∈ resolvedValues a, p.truthy = true := by
  intro p hp
  unfold resolvedValues at hp
  rw [List.reduceOption_mem_iff] at hp
  have h := (List.mem_filter.mp hp).2
  simpa using h

/-- Helper: when every entry of an attribute resolves to a falsy value, the
resolved value list is empty. -/
theorem resolvedValues_eq_nil (a : AttrRec)
    (hfalsy : ∀ v ∈ a.values.getD [],
      ((resolveValue v).map JPrim.truthy).getD false = false) :
    resolvedValues a = [] := by
  unfold resolvedValues
  rw [List.filter_eq_nil_iff.mpr ?_]
  · rfl
  · intro o ho
    obtain ⟨v, hv, hr⟩ := List.mem_map.mp ho
    subst hr
    simp [hfalsy v hv]

/-- Helper: the fingerprint of a singleton selected-attribute list differs from
that of the empty list (the serialized entry occupies space between the
brackets). -/
theorem attrFingerprint_singleton_ne (x : SelAttr) :
    attrFingerprint [x] ≠ attrFingerprint [] := by
  intro hEq
  obtain ⟨t, ht⟩ : ∃ t, serAttr x = "\x7b" ++ t := ⟨_, rfl⟩
  have hlen := congrArg String.length hEq
  rw [show attrFingerprint [x] = ("[" ++ serAttr x) ++ "]" from rfl, ht,
    show attrFingerprint [] = "[]" from rfl] at hlen
  simp [String.length_append, show ("[" : String).length = 1 from rfl,
    show ("\x7b" : String).length = 1 from rfl, show ("]" : String).length = 1 from rfl,
    show ("[]" : String).length = 2 from rfl] at hlen

/-- C10: `pickSizeAttributes` resolves each entry as `value`, else `text`, else
`dictionary_value_id`, and filters the resolutions by truthiness — every value
kept is truthy, so falsy resolutions (empty string, the number 0, absent) are
dropped — while a name-matched attribute whose entries all resolve falsy is
still included with an empty value list, which still changes the attribute
fingerprint relative to the attribute being absent. -/
theorem c10_pick_truthiness :
    (∀ (patterns : List String) (item : AttrsItem) (e : SelAttr),
        e ∈ pickSizeAttributes patterns item → ∀ p ∈ e.values, p.truthy = true)
    ∧ (∀ (patterns : List String) (a : AttrRec),
        patterns.any (fun p => strIncludes (strToLower (jsStr a.name)) p) = true →
        (∀ v ∈ a.values.getD [],
          ((resolveValue v).map JPrim.truthy).getD false = false) →
        pickSizeAttributes patterns { attributes := some [a] }
          = [{ name := a.name, attribute_id := a.attribute_id, values := [] }]
        ∧ attrFingerprint (pickSizeAttributes patterns { attributes := some [a] })
            ≠ attrFingerprint []) := by
  constructor
  · intro patterns item e he p hp
    obtain ⟨a, _, hfa⟩ := List.mem_filterMap.mp he
    simp only at hfa
    split at hfa
    · rw [← Option.some.inj hfa] at hp
      exact resolvedValues_truthy a p hp
    · exact absurd hfa (by simp)
  · intro patterns a hmatch hfalsy
    have hpick : pickSizeAttributes patterns { attributes := some [a] }
        = [{ name := a.name, attribute_id := a.attribute_id, values := resolvedValues a }] := by
      have hm2 : ∃ x ∈ patterns, strIncludes (strToLower (jsStr a.name)) x = true := by
        simpa [List.any_eq_true] using hmatch
      simp [pickSizeAttributes, hm2]
    rw [resolvedValues_eq_nil a hfalsy] at hpick
    refine ⟨hpick, ?_⟩
    rw [hpick]
    exact attrFingerprint_singleton_ne _

/-- C10 witness: a matched attribute with one truthy value keeps exactly the
truthy one, and `attrC10`, all of whose entries resolve falsy (empty string,
dictionary id 0, nothing resolvable), is still included with an empty value
list and still affects the fingerprint. -/
theorem c10_witness :
    JPrim.truthy (JPrim.str "36") = true
    ∧ pickSizeAttributes ["size"] { attributes := some [attrC10] }
        = [{ name := some "Size info", attribute_id := some 9533, values := [] }]
    ∧ attrFingerprint (pickSizeAttributes ["size"] { attributes := some [attrC10] })
        ≠ attrFingerprint [] := by
  have h2 := c10_pick_truthiness.2 ["size"] attrC10 (by decide) (by decide)
  exact ⟨c10_pick_truthiness.1 ["size"] { attributes := some [attrC10b] }
      { name := some "size", attribute_id := some 10, values := [JPrim.str "36"] }
      (by decide) (JPrim.str "36") (by decide),
    h2.1, h2.2⟩

end Ozon
